import Mathlib

/-!
Verification of the WUA (Windows Update Agent) integration layer of the
osconfig agent, `packages/wua_windows.go`.

The Go code drives a COM automation surface (IDispatch objects reached via
GetProperty / CallMethod / PutProperty).  We embed it shallowly: each COM
object the code reads is modelled as a record of the outcomes the automation
layer would hand back (each property read or method call is an
`Except GoErr v`), and each Go function becomes a Lean function from such a
world to its result together with a trace of observable events (lock and
unlock of the global session mutex, handle acquisitions and releases,
EULA-accept / download / install method invocations).  Go functions that
return `(value, error)` pairs where the value is nil exactly when the error
is non-nil are modelled with `Except`.
-/

namespace Wua

/-- Go error values are modelled by their message strings; wrapping with
`fmt.Errorf("label: %v", err)` becomes prefixing the label. -/
abbrev GoErr := String

/-- Result of the dynamic type inspection `variant.Value()`: the Go code in
`GetCount` asserts `.(int32)`; any other dynamic type makes the assertion
yield the zero value.  `vI32` carries the int32 payload. -/
inductive VValue where
  | vI32 (n : Int)
  | vStr (s : String)
  | vNull
  deriving DecidableEq, Repr

/-- The int32 extracted by the Go type assertion `countRaw.Value().(int32)`:
the payload for an int32 variant, and 0 (the int32 zero value, with the
assertion failing) for anything else. -/
def asInt32 : VValue → Int
  | .vI32 n => n
  | _ => 0

/-- Observable events of a run: global session mutex operations, COM
subsystem setup and teardown, handle (COM reference) acquisition and
release by handle id, and the externally visible method invocations of the
install path. -/
inductive Ev where
  | lock
  | unlock
  | coInit
  | coUninit
  | acquire (h : Nat)
  | release (h : Nat)
  | acceptEula
  | callDownload
  | callInstall
  deriving DecidableEq, Repr

/-- Count occurrences of an event in a trace. -/
def evCount (tr : List Ev) (e : Ev) : Nat :=
  tr.count e

/-- A Go `(value, error)` result paired with the event trace the call
emitted.  `.error` corresponds to a non-nil Go error (with the value
nil / zero). -/
abbrev Res (α : Type) := Except GoErr α × List Ev

/-- Sequencing of two calls: on error the second never runs; traces are
concatenated. -/
def bindR {α β : Type} (r : Res α) (f : α → Res β) : Res β :=
  match r with
  | (.error e, tr) => (.error e, tr)
  | (.ok a, tr) =>
    let s := f a
    (s.1, tr ++ s.2)

/-- Lift a traceless property read, wrapping the error with the label the Go
code puts in `fmt.Errorf`. -/
def liftE {α : Type} (label : String) (x : Except GoErr α) : Res α :=
  match x with
  | .error e => (.error (label ++ e), [])
  | .ok a => (.ok a, [])

/-- GetCount returns the Count property (Go `GetCount`): a failed property
read is wrapped and returned; a successful read is coerced with the
`.(int32)` type assertion, whose failure silently yields 0. -/
def GetCount (countProp : Except GoErr VValue) : Except GoErr Int :=
  match countProp with
  | .error e => .error ("IDispatch.GetProperty Count: " ++ e)
  | .ok v => .ok (asInt32 v)

/-- A nested indexable collection whose items are read as strings
(KBArticleIDs, MoreInfoURLs): the handle id of its IDispatch, the outcome of
reading its Count property, and the outcome of `GetProperty("Item", i)`
followed by `ToString` for each index. -/
structure StrColl where
  hid : Nat
  countProp : Except GoErr VValue
  item : Nat → Except GoErr String

/-- The item loop shared by `kbaIDs` and `moreInfoURLs`: read items
0 .. n-1 in order, aborting on the first failure (wrapped with the given
label).  Stated as snoc recursion, which produces the same result and the
same first error as the Go `for` loop. -/
def strItemsLoop (c : StrColl) (label : String) : Nat → Except GoErr (List String)
  | 0 => .ok []
  | n + 1 =>
    match strItemsLoop c label n with
    | .error e => .error e
    | .ok ss =>
      match c.item n with
      | .error e => .error (label ++ toString n ++ ": " ++ e)
      | .ok s => .ok (ss ++ [s])

/-- Shared body of the two string sub-collection readers: acquire the
sub-collection dispatch, read Count, return nil for a zero count, otherwise
loop over the items; the deferred release of the sub-collection dispatch
runs on every path.  A negative count also skips the loop (the Go loop
bound `i < int(count)` is never satisfied), handled here by `Int.toNat`. -/
def strCollRead (propLabel itemLabel : String) (cp : Except GoErr StrColl) :
    Res (List String) :=
  match cp with
  | .error e => (.error (propLabel ++ e), [])
  | .ok c =>
    let body : Except GoErr (List String) :=
      match GetCount c.countProp with
      | .error e => .error e
      | .ok cnt => if cnt = 0 then .ok [] else strItemsLoop c itemLabel cnt.toNat
    (body, [.acquire c.hid, .release c.hid])

/-- Go `(u *IUpdate) kbaIDs()`. -/
def kbaIDs (cp : Except GoErr StrColl) : Res (List String) :=
  strCollRead "IUpdate.GetProperty KBArticleIDs: " "kbArticleIDs.GetProperty Item " cp

/-- Go `(u *IUpdate) moreInfoURLs()`. -/
def moreInfoURLs (cp : Except GoErr StrColl) : Res (List String) :=
  strCollRead "IUpdate.GetProperty MoreInfoURLs: " "moreInfoURLs.GetProperty Item " cp

/-- One item of the Categories sub-collection: its own dispatch handle plus
the outcomes of reading its Name and CategoryID properties (already passed
through `ToString`). -/
structure CatItem where
  hid : Nat
  nameProp : Except GoErr String
  categoryIDProp : Except GoErr String

/-- The Categories sub-collection. -/
structure CatColl where
  hid : Nat
  countProp : Except GoErr VValue
  item : Nat → Except GoErr CatItem

/-- The category item loop of Go `categories()`: for each index fetch the
item dispatch (whose release is deferred to function exit, hence the list
of acquired handle ids returned alongside), then read Name and CategoryID,
appending to the two parallel accumulators.  First failure aborts. -/
def catItemsLoop (c : CatColl) : Nat → Except GoErr (List String × List String) × List Nat
  | 0 => (.ok ([], []), [])
  | n + 1 =>
    match catItemsLoop c n with
    | (.error e, hs) => (.error e, hs)
    | (.ok (cns, cids), hs) =>
      match c.item n with
      | .error e => (.error ("cat.GetProperty Item " ++ toString n ++ ": " ++ e), hs)
      | .ok ci =>
        match ci.nameProp with
        | .error e => (.error ("item.GetProperty Name: " ++ e), hs ++ [ci.hid])
        | .ok nm =>
          match ci.categoryIDProp with
          | .error e => (.error ("item.GetProperty CategoryID: " ++ e), hs ++ [ci.hid])
          | .ok cid => (.ok (cns ++ [nm], cids ++ [cid]), hs ++ [ci.hid])

/-- Go `(u *IUpdate) categories()`: read the Categories property, acquire
its dispatch (deferred release), read Count, return two nil lists on zero
count, otherwise run the item loop; all item dispatches acquired by the
loop are released by their deferred calls, last acquired first, before the
Categories dispatch itself. -/
def categories (cp : Except GoErr CatColl) : Res (List String × List String) :=
  match cp with
  | .error e => (.error ("IUpdate.GetProperty Categories: " ++ e), [])
  | .ok c =>
    match GetCount c.countProp with
    | .error e => (.error e, [.acquire c.hid, .release c.hid])
    | .ok cnt =>
      if cnt = 0 then (.ok ([], []), [.acquire c.hid, .release c.hid])
      else
        let (r, hs) := catItemsLoop c cnt.toNat
        (r, .acquire c.hid :: (hs.map Ev.acquire
              ++ hs.reverse.map Ev.release ++ [.release c.hid]))

/-- The Identity sub-object of an update: its dispatch handle and the
RevisionNumber (numeric `.Val`) and UpdateID (string) property outcomes. -/
structure IdentityObj where
  hid : Nat
  revisionNumber : Except GoErr Int
  updateID : Except GoErr String

/-- One native update object (IUpdate) as seen by `extractPkg` and
`InstallWUAUpdate`: outcomes of each property read the code performs.
`ldctRaw` is the raw 64-bit `.Val` of the LastDeploymentChangeTime variant
and `ldctDate` the outcome of decoding it with `ole.GetVariantDate` (an
external library call, modelled by its outcome); `eulaVal` is the `.Val` of
the EulaAccepted variant. -/
structure UpdateObj where
  hid : Nat
  titleProp : Except GoErr String
  descriptionProp : Except GoErr String
  kbColl : Except GoErr StrColl
  catColl : Except GoErr CatColl
  moreInfoColl : Except GoErr StrColl
  supportURLProp : Except GoErr String
  ldctRaw : Except GoErr Int
  ldctDate : Except GoErr Nat
  identityObj : Except GoErr IdentityObj
  eulaVal : Except GoErr Int

/-- The update collection returned by a search: dispatch handle, Count
property outcome, and the outcome of `GetProperty("Item", i)` for each
index (a fresh IUpdate dispatch on success). -/
structure UpdateColl where
  hid : Nat
  countProp : Except GoErr VValue
  item : Nat → Except GoErr UpdateObj

/-- The portable output record (Go `WUAPackage`), timestamps as decoded
dates. -/
structure WUAPackage where
  Title : String
  Description : String
  Categories : List String
  CategoryIDs : List String
  KBArticleIDs : List String
  MoreInfoURLs : List String
  SupportURL : String
  UpdateID : String
  RevisionNumber : Int
  LastDeploymentChangeTime : Nat
  deriving DecidableEq, Repr

/-- The identity sub-extraction at the end of Go `extractPkg`: acquire the
Identity dispatch (deferred release), read RevisionNumber then UpdateID. -/
def identityRead (ip : Except GoErr IdentityObj) : Res (Int × String) :=
  match ip with
  | .error e => (.error ("updt.GetProperty Identity: " ++ e), [])
  | .ok io =>
    let body : Except GoErr (Int × String) :=
      match io.revisionNumber with
      | .error e => .error ("identity.GetProperty RevisionNumber: " ++ e)
      | .ok rv =>
        match io.updateID with
        | .error e => .error ("identity.GetProperty UpdateID: " ++ e)
        | .ok uid => .ok (rv, uid)
    (body, [.acquire io.hid, .release io.hid])

/-- Go `(c *IUpdateCollection) extractPkg(item int)`: fetch the update
handle (deferred release), then read Title, Description, KB article IDs,
categories, more-info URLs, SupportURL, LastDeploymentChangeTime (raw then
decoded), and the Identity pair, assembling a `WUAPackage`; the first
failure aborts and propagates. -/
def extractPkg (c : UpdateColl) (i : Nat) : Res WUAPackage :=
  match c.item i with
  | .error e => (.error ("IUpdateCollection.GetProperty Item " ++ toString i ++ ": " ++ e), [])
  | .ok u =>
    let body : Res WUAPackage :=
      bindR (liftE "updt.GetProperty Title: " u.titleProp) fun title =>
      bindR (liftE "updt.GetProperty Description: " u.descriptionProp) fun description =>
      bindR (kbaIDs u.kbColl) fun kbArticleIDs =>
      bindR (categories u.catColl) fun cats =>
      bindR (moreInfoURLs u.moreInfoColl) fun moreInfo =>
      bindR (liftE "updt.GetProperty SupportURL: " u.supportURLProp) fun supportURL =>
      bindR (liftE "updt.GetProperty LastDeploymentChangeTime: " u.ldctRaw) fun _ =>
      bindR (liftE "ole.GetVariantDate: " u.ldctDate) fun ldct =>
      bindR (identityRead u.identityObj) fun rvuid =>
      (.ok { Title := title, Description := description,
             Categories := cats.1, CategoryIDs := cats.2,
             KBArticleIDs := kbArticleIDs, MoreInfoURLs := moreInfo,
             SupportURL := supportURL, UpdateID := rvuid.2,
             RevisionNumber := rvuid.1, LastDeploymentChangeTime := ldct }, [])
    (body.1, .acquire u.hid :: body.2 ++ [.release u.hid])

/-- Outcomes of the three steps of Go `NewUpdateSession`: the
initialization of the COM subsystem, `oleutil.CreateObject` (yielding the
IUnknown handle id), and the IDispatch interface query (yielding the
session dispatch handle id). -/
structure SessionWorld where
  coInitRes : Except GoErr Unit
  createObj : Except GoErr Nat
  queryIface : Except GoErr Nat

/-- Go `NewUpdateSession`: take the global session lock; on subsystem
initialization failure unlock and return; on object-creation failure call
Close (which uninitializes and unlocks; the dispatch is still nil so
nothing is released); on interface-query failure release the IUnknown then
call Close; on success return the session dispatch with the lock held.  The
IUnknown obtained from CreateObject is released only on the
interface-query failure path. -/
def NewUpdateSession (w : SessionWorld) : Res Nat :=
  match w.coInitRes with
  | .error e => (.error e, [.lock, .unlock])
  | .ok _ =>
    match w.createObj with
    | .error e =>
      (.error ("oleutil.CreateObject Microsoft.Update.Session: " ++ e),
       [.lock, .coInit, .coUninit, .unlock])
    | .ok unk =>
      match w.queryIface with
      | .error e =>
        (.error ("error creating Dispatch object from Microsoft.Update.Session connection: " ++ e),
         [.lock, .coInit, .acquire unk, .release unk, .coUninit, .unlock])
      | .ok disp => (.ok disp, [.lock, .coInit, .acquire unk, .acquire disp])

/-- Go `(s *IUpdateSession) Close()`: release the session dispatch if
present, uninitialize the COM subsystem, unlock the global session lock. -/
def sessionClose (dispHid : Option Nat) : List Ev :=
  (match dispHid with
   | some h => [Ev.release h]
   | none => []) ++ [.coUninit, .unlock]

/-- Outcomes of the three automation calls of Go `GetWUAUpdateCollection`:
CreateUpdateSearcher (searcher handle id), the Search call (result handle
id), and the Updates property (the update collection, carrying its own
handle id). -/
structure SearchWorld where
  createSearcher : Except GoErr Nat
  searchCall : Except GoErr Nat
  updatesProp : Except GoErr UpdateColl

/-- Go `GetWUAUpdateCollection`: create the searcher (deferred release),
run the search (deferred release of the result), read the Updates property
and hand the collection to the caller, who owns its release.  Deferred
releases run last-in first-out: result, then searcher. -/
def GetWUAUpdateCollection (sw : SearchWorld) : Res UpdateColl :=
  match sw.createSearcher with
  | .error e => (.error ("error calling CreateUpdateSearcher: " ++ e), [])
  | .ok sh =>
    match sw.searchCall with
    | .error e =>
      (.error ("error calling method Search on IUpdateSearcher: " ++ e),
       [.acquire sh, .release sh])
    | .ok rh =>
      match sw.updatesProp with
      | .error e =>
        (.error ("error calling GetProperty Updates on ISearchResult: " ++ e),
         [.acquire sh, .acquire rh, .release rh, .release sh])
      | .ok coll =>
        (.ok coll, [.acquire sh, .acquire rh, .acquire coll.hid, .release rh, .release sh])

/-- The full world a `WUAUpdates` call runs against. -/
structure WuaWorld where
  session : SessionWorld
  search : SearchWorld

/-- The extraction loop of Go `WUAUpdates`: extract packages for indices
0 .. n-1 in order, appending each; the first extraction failure aborts the
whole batch (its trace, including the releases already performed, is
kept). -/
def extractLoop (c : UpdateColl) : Nat → Res (List WUAPackage)
  | 0 => (.ok [], [])
  | n + 1 =>
    match extractLoop c n with
    | (.error e, tr) => (.error e, tr)
    | (.ok ps, tr) =>
      let r := extractPkg c n
      ((match r.1 with
        | .error e => .error e
        | .ok p => .ok (ps ++ [p])), tr ++ r.2)

/-- Go `WUAUpdates(ctx, query)`: open a session (deferred Close), search
for the collection (deferred Release), read its Count; a zero count
returns a nil list and nil error; otherwise run the extraction loop.  A
negative count never satisfies the loop bound and likewise yields a nil
list (`Int.toNat` sends it to 0). -/
def WUAUpdates (w : WuaWorld) : Res (List WUAPackage) :=
  match NewUpdateSession w.session with
  | (.error e, tr) => (.error ("error creating NewUpdateSession: " ++ e), tr)
  | (.ok disp, tr) =>
    let inner : Res (List WUAPackage) :=
      match GetWUAUpdateCollection w.search with
      | (.error e, tr2) =>
        (.error ("error calling GetWUAUpdateCollection: " ++ e), tr2)
      | (.ok coll, tr2) =>
        let inner2 : Res (List WUAPackage) :=
          match GetCount coll.countProp with
          | .error e => (.error e, [])
          | .ok cnt =>
            if cnt = 0 then (.ok [], []) else extractLoop coll cnt.toNat
        (inner2.1, tr2 ++ inner2.2 ++ [.release coll.hid])
    (inner.1, tr ++ inner.2 ++ sessionClose (some disp))

/-- Outcomes of Go `NewUpdateCollection`: `oleutil.CreateObject` (IUnknown
handle id, release deferred) and the IDispatch query (collection dispatch
handle id, returned to the caller). -/
structure NewCollWorld where
  createObj : Except GoErr Nat
  queryIface : Except GoErr Nat

/-- Go `NewUpdateCollection`: create the collection object (deferred
release of the IUnknown on every path), query its IDispatch, return the
dispatch handle. -/
def NewUpdateCollection (w : NewCollWorld) : Res Nat :=
  match w.createObj with
  | .error e => (.error ("oleutil.CreateObject Microsoft.Update.UpdateColl: " ++ e), [])
  | .ok uh =>
    match w.queryIface with
    | .error e => (.error e, [.acquire uh, .release uh])
    | .ok dh => (.ok dh, [.acquire uh, .acquire dh, .release uh])

/-- Outcomes of the three automation calls of Go
`DownloadWUAUpdateCollection`: CreateUpdateDownloader (downloader handle
id), the Updates property assignment, and the Download method call. -/
structure DownloadWorld where
  createDownloader : Except GoErr Nat
  putUpdates : Except GoErr Unit
  download : Except GoErr Unit

/-- Go `DownloadWUAUpdateCollection`: create the downloader (deferred
release), assign the collection, invoke Download.  The `callDownload`
event marks the Download invocation, emitted whether it succeeds or
fails. -/
def DownloadWUAUpdateCollection (w : DownloadWorld) : Res Unit :=
  match w.createDownloader with
  | .error e => (.error ("error calling method CreateUpdateDownloader on IUpdateSession: " ++ e), [])
  | .ok dh =>
    match w.putUpdates with
    | .error e =>
      (.error ("error calling PutProperty Updates on IUpdateDownloader: " ++ e),
       [.acquire dh, .release dh])
    | .ok _ =>
      match w.download with
      | .error e =>
        (.error ("error calling method Download on IUpdateDownloader: " ++ e),
         [.acquire dh, .callDownload, .release dh])
      | .ok _ => (.ok (), [.acquire dh, .callDownload, .release dh])

/-- Outcomes of the three automation calls of Go
`InstallWUAUpdateCollection`: CreateUpdateInstaller (installer handle id),
the Updates property assignment, and the Install method call. -/
structure InstallerWorld where
  createInstaller : Except GoErr Nat
  putUpdates : Except GoErr Unit
  install : Except GoErr Unit

/-- Go `InstallWUAUpdateCollection`: create the installer (deferred
release), assign the collection, invoke Install.  The `callInstall` event
marks the Install invocation, emitted whether it succeeds or fails. -/
def InstallWUAUpdateCollection (w : InstallerWorld) : Res Unit :=
  match w.createInstaller with
  | .error e => (.error ("error calling method CreateUpdateInstaller on IUpdateSession: " ++ e), [])
  | .ok ih =>
    match w.putUpdates with
    | .error e =>
      (.error ("error calling PutProperty Updates on IUpdateInstaller: " ++ e),
       [.acquire ih, .release ih])
    | .ok _ =>
      match w.install with
      | .error e =>
        (.error ("error calling method Install on IUpdateInstaller: " ++ e),
         [.acquire ih, .callInstall, .release ih])
      | .ok _ => (.ok (), [.acquire ih, .callInstall, .release ih])

/-- The world one `InstallWUAUpdate` call runs against: the update handle
(for its Title, EulaAccepted reads and the AcceptEula call), the fresh
collection construction, the Add call, and the download and install
phases. -/
structure InstallWorld where
  updt : UpdateObj
  acceptEulaCall : Except GoErr Unit
  newColl : NewCollWorld
  addCall : Except GoErr Unit
  dl : DownloadWorld
  inst : InstallerWorld

/-- Steps 4 to 6 of Go `InstallWUAUpdate`, after the EULA handling: add the
update to the scoped collection, run the download phase, run the install
phase, each fatal on error and with its error wrapped as in the source. -/
def installAfterEula (w : InstallWorld) : Res Unit :=
  bindR (liftE "IUpdateCollection.CallMethod Add: " w.addCall) fun _ =>
  bindR (match DownloadWUAUpdateCollection w.dl with
         | (.error e, t) => (.error ("DownloadWUAUpdateCollection error: " ++ e), t)
         | (.ok _, t) => (.ok (), t)) fun _ =>
  (match InstallWUAUpdateCollection w.inst with
   | (.error e, t) => (.error ("InstallWUAUpdateCollection error: " ++ e), t)
   | (.ok _, t) => (.ok (), t))

/-- Step 3 of Go `InstallWUAUpdate`: when the EulaAccepted `.Val` is 0
invoke AcceptEula (the `acceptEula` event marks the invocation, emitted
whether the call succeeds or fails), otherwise skip silently. -/
def eulaStep (w : InstallWorld) (v : Int) : Res Unit :=
  if v = 0 then
    match w.acceptEulaCall with
    | .error e => (.error ("updt.CallMethod AcceptEula: " ++ e), [.acceptEula])
    | .ok _ => (.ok (), [.acceptEula])
  else (.ok (), [])

/-- Go `InstallWUAUpdate`: read Title; build a fresh single-item collection
(deferred release on every later path); read EulaAccepted and handle the
EULA; then add, download, install.  Each step is fatal on error. -/
def InstallWUAUpdate (w : InstallWorld) : Res Unit :=
  match w.updt.titleProp with
  | .error e => (.error ("updt.GetProperty Title: " ++ e), [])
  | .ok _ =>
    match NewUpdateCollection w.newColl with
    | (.error e, tr) => (.error e, tr)
    | (.ok collHid, tr) =>
      let body : Res Unit :=
        match w.updt.eulaVal with
        | .error e => (.error ("updt.GetProperty EulaAccepted: " ++ e), [])
        | .ok v => bindR (eulaStep w v) fun _ => installAfterEula w
      (body.1, tr ++ body.2 ++ [.release collHid])

/-- A Go error value as inspected by `GetScodeString`: either nil, a
structured platform error (`*ole.OleError`) whose SubError may or may not
be an `ole.EXCEPINFO` carrying an SCODE, or any other error. -/
inductive SubErrObj where
  | excep (scode : Int)
  | otherSub (msg : String)
  | noSub
  deriving DecidableEq, Repr

/-- A non-nil Go error for the diagnostic decoder. -/
inductive GoErrObj where
  | oleErr (sub : SubErrObj) (msg : String)
  | generic (msg : String)
  deriving DecidableEq, Repr

/-- Hexadecimal rendering of the SCODE, as Go fmt `%x` renders an int32:
lowercase digits, and a leading minus sign for a negative value. -/
def hexOf (n : Int) : String :=
  if n < 0 then "-" ++ String.mk (Nat.toDigits 16 n.natAbs)
  else String.mk (Nat.toDigits 16 n.toNat)

/-- Go `GetScodeString(ctx, err)`: type-assert the error to `*ole.OleError`
(a nil error or any other concrete type fails the assertion), then
type-assert its SubError to `ole.EXCEPINFO`; when both succeed render the
SCODE, otherwise return the empty string.  The input error is only read,
never altered. -/
def GetScodeString (err : Option GoErrObj) : String :=
  match err with
  | some (.oleErr (.excep scode) _) => " SCODE: 0x" ++ hexOf scode
  | _ => ""

/-- State of the process-wide session discipline: whether the global
session mutex `wuaSession` is held, and how many sessions opened by
`NewUpdateSession` have not yet been closed. -/
structure SessState where
  locked : Bool
  openCount : Nat
  deriving DecidableEq, Repr

/-- Labels of the session lifecycle transitions. -/
inductive SessLabel where
  | openOk
  | openFail
  | closeSess
  deriving DecidableEq, Repr

/-- The session lifecycle step relation induced by the Go code:
`NewUpdateSession` first acquires the mutex, so it can proceed only from
an unlocked state; on success it returns with the lock held and one more
session open (`openOk`); on any construction failure it has released the
lock before returning (`openFail`); `Close` on an open session releases
the lock and closes the session (`closeSess`). -/
inductive SessStep : SessState → SessLabel → SessState → Prop where
  | openOk (s : SessState) (h : s.locked = false) :
      SessStep s .openOk ⟨true, s.openCount + 1⟩
  | openFail (s : SessState) (h : s.locked = false) :
      SessStep s .openFail s
  | closeSess (s : SessState) (h : s.locked = true) :
      SessStep s .closeSess ⟨false, s.openCount - 1⟩

/-- States reachable from the initial state (mutex free, no open session)
by session lifecycle steps. -/
inductive SessReachable : SessState → Prop where
  | init : SessReachable ⟨false, 0⟩
  | step (s t : SessState) (l : SessLabel) (hr : SessReachable s)
      (hs : SessStep s l t) : SessReachable t

/-! Concrete worlds used to evaluate the model on closed inputs.  Handle
ids are chosen pairwise distinct. -/

/-- A KB article ID sub-collection with one item. -/
def exKb : StrColl :=
  { hid := 21, countProp := .ok (.vI32 1), item := fun _ => .ok "KB4056892" }

/-- A more-info URL sub-collection reporting count zero. -/
def exMi : StrColl :=
  { hid := 51, countProp := .ok (.vI32 0), item := fun _ => .ok "unusedUrl" }

/-- A category collection with two items. -/
def exCatColl : CatColl :=
  { hid := 31, countProp := .ok (.vI32 2),
    item := fun i =>
      if i = 0 then .ok { hid := 41, nameProp := .ok "SecurityUpdates",
                          categoryIDProp := .ok "catId0" }
      else .ok { hid := 42, nameProp := .ok "CriticalUpdates",
                 categoryIDProp := .ok "catId1" } }

/-- An identity sub-object. -/
def exIdent : IdentityObj :=
  { hid := 61, revisionNumber := .ok 200, updateID := .ok "uid0" }

/-- A fully readable update object whose EulaAccepted flag is 0. -/
def exUpd0 : UpdateObj :=
  { hid := 10, titleProp := .ok "Title0", descriptionProp := .ok "Desc0",
    kbColl := .ok exKb, catColl := .ok exCatColl, moreInfoColl := .ok exMi,
    supportURLProp := .ok "support0", ldctRaw := .ok 43000,
    ldctDate := .ok 20171204, identityObj := .ok exIdent, eulaVal := .ok 0 }

/-- A second fully readable update object, EulaAccepted flag 1. -/
def exUpd1 : UpdateObj :=
  { hid := 11, titleProp := .ok "Title1", descriptionProp := .ok "Desc1",
    kbColl := .ok exKb, catColl := .ok exCatColl, moreInfoColl := .ok exMi,
    supportURLProp := .ok "support1", ldctRaw := .ok 43001,
    ldctDate := .ok 20171205, identityObj := .ok exIdent, eulaVal := .ok 1 }

/-- An update object whose Description read fails. -/
def exUpdBad : UpdateObj :=
  { hid := 12, titleProp := .ok "TitleBad", descriptionProp := .error "E_FAIL",
    kbColl := .ok exKb, catColl := .ok exCatColl, moreInfoColl := .ok exMi,
    supportURLProp := .ok "supportBad", ldctRaw := .ok 43002,
    ldctDate := .ok 20171206, identityObj := .ok exIdent, eulaVal := .ok 0 }

/-- A search result collection of two fully readable updates. -/
def exColl : UpdateColl :=
  { hid := 5, countProp := .ok (.vI32 2),
    item := fun i => if i = 0 then .ok exUpd0 else .ok exUpd1 }

/-- A collection of two updates where the second item fails extraction. -/
def exCollBad : UpdateColl :=
  { hid := 6, countProp := .ok (.vI32 2),
    item := fun i => if i = 0 then .ok exUpd0 else .ok exUpdBad }

/-- A collection reporting count zero. -/
def exCollZero : UpdateColl :=
  { hid := 7, countProp := .ok (.vI32 0), item := fun _ => .ok exUpd0 }

/-- A session construction in which every step succeeds. -/
def exSession : SessionWorld :=
  { coInitRes := .ok (), createObj := .ok 1, queryIface := .ok 2 }

/-- A search in which every automation call succeeds, over `exColl`. -/
def exSearch : SearchWorld :=
  { createSearcher := .ok 3, searchCall := .ok 4, updatesProp := .ok exColl }

/-- A fully successful two-update search world. -/
def exW : WuaWorld := { session := exSession, search := exSearch }

/-- A search world whose second update fails extraction. -/
def exWBad : WuaWorld :=
  { session := exSession,
    search := { createSearcher := .ok 3, searchCall := .ok 4,
                updatesProp := .ok exCollBad } }

/-- A search world over a zero-count collection. -/
def exWZero : WuaWorld :=
  { session := exSession,
    search := { createSearcher := .ok 3, searchCall := .ok 4,
                updatesProp := .ok exCollZero } }

/-- A fully successful install world for an update with EULA not yet
accepted. -/
def exInstall : InstallWorld :=
  { updt := exUpd0, acceptEulaCall := .ok (),
    newColl := { createObj := .ok 70, queryIface := .ok 71 },
    addCall := .ok (),
    dl := { createDownloader := .ok 72, putUpdates := .ok (), download := .ok () },
    inst := { createInstaller := .ok 73, putUpdates := .ok (), install := .ok () } }

/-- The same install world for an update whose EULA is already accepted. -/
def exInstallAcc : InstallWorld := { exInstall with updt := exUpd1 }

/-- An install world whose download phase fails at the Download call. -/
def exInstallDlFail : InstallWorld :=
  { exInstall with
    dl := { createDownloader := .ok 72, putUpdates := .ok (),
            download := .error "WU_E_DOWNLOAD" } }

/-- A collection whose Count property reads successfully but holds a
string instead of an int32. -/
def exCollNull : UpdateColl :=
  { hid := 8, countProp := .ok (.vStr "three"), item := fun _ => .ok exUpd0 }

/-- A search world over the malformed-Count collection. -/
def exWNull : WuaWorld :=
  { session := exSession,
    search := { createSearcher := .ok 3, searchCall := .ok 4,
                updatesProp := .ok exCollNull } }

/-- Session construction succeeds through every step of `NewUpdateSession`
(lock acquired, subsystem initialized, object created, interface query
succeeded). -/
def sessionOk (w : SessionWorld) : Prop :=
  w.coInitRes = .ok () ∧ (∃ u, w.createObj = .ok u) ∧ (∃ d, w.queryIface = .ok d)

/-- The searcher-creation and search automation calls succeed. -/
def searchPathOk (sw : SearchWorld) : Prop :=
  (∃ a, sw.createSearcher = .ok a) ∧ (∃ b, sw.searchCall = .ok b)

/-- A string sub-collection whose Count property holds a string. -/
def exKbNull : StrColl :=
  { hid := 22, countProp := .ok (.vStr "three"), item := fun _ => .ok "KB000" }

/-- A category collection whose Count property holds a string. -/
def exCatNull : CatColl :=
  { hid := 32, countProp := .ok (.vStr "three"),
    item := fun _ => .ok { hid := 43, nameProp := .ok "n", categoryIDProp := .ok "c" } }

/-- Filter a trace down to its EULA-accept and download invocations. -/
def adFilter (tr : List Ev) : List Ev :=
  tr.filter (fun e => e == .acceptEula || e == .callDownload)

/-- Filter a trace down to its download and install invocations. -/
def diFilter (tr : List Ev) : List Ev :=
  tr.filter (fun e => e == .callDownload || e == .callInstall)

/-! Helper lemmas about the sequencing combinators. -/

@[simp]
theorem bindR_err {α β : Type} (e : GoErr) (tr : List Ev) (f : α → Res β) :
    bindR (Except.error e, tr) f = (Except.error e, tr) := rfl

@[simp]
theorem bindR_ok {α β : Type} (a : α) (tr : List Ev) (f : α → Res β) :
    bindR (Except.ok a, tr) f = ((f a).1, tr ++ (f a).2) := rfl

@[simp]
theorem liftE_err {α : Type} (l : String) (e : GoErr) :
    liftE (α := α) l (.error e) = (.error (l ++ e), []) := rfl

@[simp]
theorem liftE_ok {α : Type} (l : String) (a : α) :
    liftE l (.ok a) = (.ok a, []) := rfl

/-- The invariant of the session lifecycle: in every reachable state the
number of open sessions is 1 when the mutex is held and 0 otherwise. -/
theorem sessReachable_openCount (s : SessState) (h : SessReachable s) :
    s.openCount = if s.locked then 1 else 0 := by
  induction h with
  | init => rfl
  | step s t l hr hs ih =>
    cases hs with
    | openOk hl => simp_all
    | openFail hl => exact ih
    | closeSess hl => simp_all

/-- Claim C5: at most one session is open per process in every reachable
state of the session lifecycle; while a session is open (mutex held) the
only possible step is its Close, so a second `NewUpdateSession` blocks;
and immediately after a Close, an open step is enabled and succeeds. -/
theorem session_mutual_exclusion :
    (∀ s : SessState, SessReachable s → s.openCount ≤ 1)
    ∧ (∀ (s : SessState) (l : SessLabel) (t : SessState),
        SessStep s l t → s.locked = true → l = SessLabel.closeSess)
    ∧ (∀ s t : SessState, SessStep s .closeSess t →
        SessStep t .openOk ⟨true, t.openCount + 1⟩) := by
  refine ⟨?_, ?_, ?_⟩
  · intro s h
    rw [sessReachable_openCount s h]
    split <;> omega
  · intro s l t hs hl
    cases hs with
    | openOk h => rw [h] at hl; cases hl
    | openFail h => rw [h] at hl; cases hl
    | closeSess h => rfl
  · intro s t hs
    cases hs with
    | closeSess h => exact SessStep.openOk _ rfl

/-- Witness for C5 at concrete states: the state after a successful open is
reachable and has one open session, the step a locked state takes is a
close, and after that close a new open step succeeds. -/
theorem session_mutual_exclusion_witness :
    SessState.openCount ⟨true, 1⟩ ≤ 1
    ∧ SessLabel.closeSess = SessLabel.closeSess
    ∧ SessStep ⟨false, 0⟩ SessLabel.openOk ⟨true, 1⟩ :=
  ⟨session_mutual_exclusion.1 ⟨true, 1⟩
      (SessReachable.step ⟨false, 0⟩ ⟨true, 1⟩ .openOk SessReachable.init
        (SessStep.openOk ⟨false, 0⟩ rfl)),
   session_mutual_exclusion.2.1 ⟨true, 1⟩ .closeSess ⟨false, 0⟩
      (SessStep.closeSess ⟨true, 1⟩ rfl) rfl,
   session_mutual_exclusion.2.2 ⟨true, 1⟩ ⟨false, 0⟩
      (SessStep.closeSess ⟨true, 1⟩ rfl)⟩

/-- Claim C6: on every error path of `NewUpdateSession` the global lock is
released exactly once before the error is returned, and on every success
path it is not released by `NewUpdateSession` itself but exactly once by
the subsequent `Close`. -/
theorem newUpdateSession_lock_discipline (w : SessionWorld) :
    (∀ e, (NewUpdateSession w).1 = .error e →
        evCount (NewUpdateSession w).2 .lock = 1
        ∧ evCount (NewUpdateSession w).2 .unlock = 1)
    ∧ (∀ h, (NewUpdateSession w).1 = .ok h →
        evCount (NewUpdateSession w).2 .lock = 1
        ∧ evCount (NewUpdateSession w).2 .unlock = 0
        ∧ evCount ((NewUpdateSession w).2 ++ sessionClose (some h)) .unlock = 1) := by
  rcases hc : w.coInitRes with e0 | u0 <;>
    rcases ho : w.createObj with e1 | h1 <;>
      rcases hq : w.queryIface with e2 | h2 <;>
        simp [NewUpdateSession, sessionClose, evCount, hc, ho, hq]

/-- Witness for C6 at the fully successful session world. -/
theorem newUpdateSession_lock_discipline_witness :
    (NewUpdateSession exSession).1 = .ok 2
    ∧ evCount (NewUpdateSession exSession).2 .lock = 1
    ∧ evCount (NewUpdateSession exSession).2 .unlock = 0
    ∧ evCount ((NewUpdateSession exSession).2 ++ sessionClose (some 2)) .unlock = 1 := by
  have h := (newUpdateSession_lock_discipline exSession).2 2 rfl
  exact ⟨rfl, h.1, h.2.1, h.2.2⟩


/-- Claim C8: the diagnostic decoder is a total function of the inspected
error (it only reads the error, never alters it); for a nil error or any
error that is not a platform-structured error carrying a status code it
returns the empty string, and for a structured error it renders the
SCODE. -/
theorem getScodeString_characterization (e : Option GoErrObj) :
    ((∀ (scode : Int) (m : String), e ≠ some (.oleErr (.excep scode) m)) →
        GetScodeString e = "")
    ∧ (∀ (scode : Int) (m : String), e = some (.oleErr (.excep scode) m) →
        GetScodeString e = " SCODE: 0x" ++ hexOf scode) := by
  refine ⟨?_, ?_⟩
  · intro h
    cases e with
    | none => rfl
    | some g =>
      cases g with
      | generic m => rfl
      | oleErr sub m =>
        cases sub with
        | excep sc => exact absurd rfl (h sc m)
        | otherSub s => rfl
        | noSub => rfl
  · intro sc m he
    subst he
    rfl

/-- Witness for C8: a nil error, a plain error, a structured error without
an SCODE-carrying sub-error, and a structured error with one. -/
theorem getScodeString_characterization_witness :
    GetScodeString none = ""
    ∧ GetScodeString (some (.generic "access denied")) = ""
    ∧ GetScodeString (some (.oleErr .noSub "ole failure")) = ""
    ∧ GetScodeString (some (.oleErr (.excep 5) "ole failure")) = " SCODE: 0x5" := by
  refine ⟨?_, ?_, ?_, ?_⟩
  · exact (getScodeString_characterization none).1 (by intro sc m h; cases h)
  · exact (getScodeString_characterization (some (.generic "access denied"))).1
      (by intro sc m h; cases h)
  · exact (getScodeString_characterization (some (.oleErr .noSub "ole failure"))).1
      (by intro sc m h; cases h)
  · have h := (getScodeString_characterization
      (some (.oleErr (.excep 5) "ole failure"))).2 5 "ole failure" rfl
    rw [h]
    rfl

/-- Claim C10: a Count property that reads successfully but does not hold
an int32 makes `GetCount` return 0 with a nil error; consequently a search
over such a collection returns an empty list with no error, and the
nested KB-article, category and more-info extractions treat such a
sub-collection as empty. -/
theorem getCount_malformed_value (v : VValue) (hv : ∀ m : Int, v ≠ .vI32 m) :
    GetCount (.ok v) = .ok 0
    ∧ (∀ (w : WuaWorld) (coll : UpdateColl), sessionOk w.session →
        searchPathOk w.search → w.search.updatesProp = .ok coll →
        coll.countProp = .ok v → (WUAUpdates w).1 = .ok [])
    ∧ (∀ c : StrColl, c.countProp = .ok v →
        (kbaIDs (.ok c)).1 = .ok [] ∧ (moreInfoURLs (.ok c)).1 = .ok [])
    ∧ (∀ c : CatColl, c.countProp = .ok v → (categories (.ok c)).1 = .ok ([], [])) := by
  have h0 : asInt32 v = 0 := by
    cases v with
    | vI32 n => exact absurd rfl (hv n)
    | vStr s => rfl
    | vNull => rfl
  refine ⟨by simp [GetCount, h0], ?_, ?_, ?_⟩
  · rintro w coll ⟨hci, ⟨u, hcr⟩, ⟨d, hqi⟩⟩ ⟨⟨a, hcs⟩, ⟨b, hsc⟩⟩ hup hcp
    simp [WUAUpdates, NewUpdateSession, GetWUAUpdateCollection, GetCount,
      hci, hcr, hqi, hcs, hsc, hup, hcp, h0]
  · intro c hcp
    constructor <;>
      simp [kbaIDs, moreInfoURLs, strCollRead, GetCount, hcp, h0]
  · intro c hcp
    simp [categories, GetCount, hcp, h0]

/-- Witness for C10 at a Count property holding the string three. -/
theorem getCount_malformed_value_witness :
    GetCount (.ok (.vStr "three")) = .ok 0
    ∧ (WUAUpdates exWNull).1 = .ok []
    ∧ (kbaIDs (.ok exKbNull)).1 = .ok []
    ∧ (moreInfoURLs (.ok exKbNull)).1 = .ok []
    ∧ (categories (.ok exCatNull)).1 = .ok ([], []) := by
  have hv : ∀ m : Int, VValue.vStr "three" ≠ .vI32 m := by intro m h; cases h
  have h := getCount_malformed_value (.vStr "three") hv
  exact ⟨h.1,
    h.2.1 exWNull exCollNull ⟨rfl, ⟨1, rfl⟩, ⟨2, rfl⟩⟩ ⟨⟨3, rfl⟩, ⟨4, rfl⟩⟩ rfl rfl,
    (h.2.2.1 exKbNull rfl).1, (h.2.2.1 exKbNull rfl).2, h.2.2.2 exCatNull rfl⟩

/-- Claim C7: a search whose collection reports count zero returns an
empty list and a nil error, and the nested KB-article-ID and
more-info-URL sub-collections likewise yield an empty list, never an
error, when their count is zero. -/
theorem wua_zero_count (w : WuaWorld) (coll : UpdateColl)
    (hs : sessionOk w.session) (hp : searchPathOk w.search)
    (hcoll : w.search.updatesProp = .ok coll)
    (hcnt : GetCount coll.countProp = .ok 0) :
    (WUAUpdates w).1 = .ok []
    ∧ (∀ c : StrColl, GetCount c.countProp = .ok 0 → (kbaIDs (.ok c)).1 = .ok [])
    ∧ (∀ c : StrColl, GetCount c.countProp = .ok 0 →
        (moreInfoURLs (.ok c)).1 = .ok []) := by
  obtain ⟨hci, ⟨u, hcr⟩, ⟨d, hqi⟩⟩ := hs
  obtain ⟨⟨a, hcs⟩, ⟨b, hsc⟩⟩ := hp
  refine ⟨?_, ?_, ?_⟩
  · simp [WUAUpdates, NewUpdateSession, GetWUAUpdateCollection,
      hci, hcr, hqi, hcs, hsc, hcoll, hcnt]
  · intro c hc
    simp [kbaIDs, strCollRead, hc]
  · intro c hc
    simp [moreInfoURLs, strCollRead, hc]

/-- Witness for C7 at the zero-count search world. -/
theorem wua_zero_count_witness :
    (WUAUpdates exWZero).1 = .ok []
    ∧ (kbaIDs (.ok exMi)).1 = .ok [] := by
  have h := wua_zero_count exWZero exCollZero
    ⟨rfl, ⟨1, rfl⟩, ⟨2, rfl⟩⟩ ⟨⟨3, rfl⟩, ⟨4, rfl⟩⟩ rfl rfl
  exact ⟨h.1, h.2.1 exMi rfl⟩


/-- Inversion of the category item loop: a successful run of the loop over
n items yields two lists of length n whose entries at each position come
from the Name and CategoryID reads of the same fetched item. -/
theorem catItemsLoop_ok (c : CatColl) :
    ∀ (n : Nat) (cns cids : List String),
    (catItemsLoop c n).1 = .ok (cns, cids) →
    cns.length = n ∧ cids.length = n
    ∧ ∀ (i : Nat) (h1 : i < cns.length) (h2 : i < cids.length),
        ∃ ci, c.item i = .ok ci
          ∧ ci.nameProp = .ok cns[i]
          ∧ ci.categoryIDProp = .ok cids[i] := by
  intro n
  induction n with
  | zero =>
    intro cns cids h
    simp only [catItemsLoop, Except.ok.injEq, Prod.mk.injEq] at h
    obtain ⟨h1, h2⟩ := h
    subst h1
    subst h2
    simp
  | succ n ih =>
    intro cns cids h
    rcases hL : catItemsLoop c n with ⟨r, hs⟩
    simp only [catItemsLoop] at h
    rw [hL] at h
    cases r with
    | error e => simp at h
    | ok p =>
      rcases p with ⟨cns0, cids0⟩
      rcases hit : c.item n with e | ci
      · simp [hit] at h
      · rcases hnm : ci.nameProp with e | nm
        · simp [hit, hnm] at h
        · rcases hcid : ci.categoryIDProp with e | cid
          · simp [hit, hnm, hcid] at h
          · simp only [hit, hnm, hcid, Except.ok.injEq, Prod.mk.injEq] at h
            obtain ⟨h1, h2⟩ := h
            subst h1
            subst h2
            obtain ⟨hl1, hl2, hitems⟩ := ih cns0 cids0 (by rw [hL])
            refine ⟨by simp [hl1], by simp [hl2], ?_⟩
            intro i hi1 hi2
            rcases Nat.lt_or_ge i n with hlt | hge
            · obtain ⟨ci0, hci0, hn0, hc0⟩ := hitems i (by omega) (by omega)
              refine ⟨ci0, hci0, ?_, ?_⟩
              · rw [List.getElem_append_left (by omega)]
                exact hn0
              · rw [List.getElem_append_left (by omega)]
                exact hc0
            · have hieq : i = n := by
                simp only [List.length_append, List.length_singleton] at hi1
                omega
              subst hieq
              refine ⟨ci, hit, ?_, ?_⟩
              · have hle : cns0.length ≤ i := by omega
                rw [List.getElem_append_right hle]
                simp only [hl1, Nat.sub_self, List.getElem_singleton]
                exact hnm
              · have hle : cids0.length ≤ i := by omega
                rw [List.getElem_append_right hle]
                simp only [hl2, Nat.sub_self, List.getElem_singleton]
                exact hcid


/-- Inversion of `categories`: a successful run yields index-aligned lists
of equal length whose entries come from the Name and CategoryID reads of
the same fetched category item. -/
theorem categories_ok (cp : Except GoErr CatColl) (cns cids : List String)
    (h : (categories cp).1 = .ok (cns, cids)) :
    ∃ cc, cp = .ok cc
      ∧ cns.length = cids.length
      ∧ ∀ (i : Nat) (h1 : i < cns.length) (h2 : i < cids.length),
          ∃ ci, cc.item i = .ok ci
            ∧ ci.nameProp = .ok cns[i]
            ∧ ci.categoryIDProp = .ok cids[i] := by
  rcases cp with e | cc
  · simp [categories] at h
  · refine ⟨cc, rfl, ?_⟩
    rcases hgc : GetCount cc.countProp with e | cnt
    · simp [categories, hgc] at h
    · by_cases hz : cnt = 0
      · simp [categories, hgc, hz] at h
        obtain ⟨h1, h2⟩ := h
        subst h1
        subst h2
        simp
      · rcases hL : catItemsLoop cc cnt.toNat with ⟨r, hsl⟩
        simp [categories, hgc, hz, hL] at h
        obtain ⟨hl1, hl2, hitems⟩ :=
          catItemsLoop_ok cc cnt.toNat cns cids (by rw [hL]; exact h)
        exact ⟨by omega, hitems⟩

/-- Inversion of `extractPkg`: a successful extraction fetched the update
handle and obtained its Categories and CategoryIDs fields from a
successful `categories` run on the same update. -/
theorem extractPkg_ok_categories (c : UpdateColl) (j : Nat) (p : WUAPackage)
    (h : (extractPkg c j).1 = .ok p) :
    ∃ u, c.item j = .ok u
      ∧ (categories u.catColl).1 = .ok (p.Categories, p.CategoryIDs) := by
  rcases hit : c.item j with e | u
  · simp [extractPkg, hit] at h
  · refine ⟨u, rfl, ?_⟩
    rcases ht : u.titleProp with e | t
    · simp [extractPkg, hit, ht] at h
    rcases hd : u.descriptionProp with e | d
    · simp [extractPkg, hit, ht, hd] at h
    rcases hkb : kbaIDs u.kbColl with ⟨rkb, tkb⟩
    cases rkb with
    | error e => simp [extractPkg, hit, ht, hd, hkb] at h
    | ok kbs =>
    rcases hcat : categories u.catColl with ⟨rcat, tcat⟩
    cases rcat with
    | error e => simp [extractPkg, hit, ht, hd, hkb, hcat] at h
    | ok cats =>
    rcases hmi : moreInfoURLs u.moreInfoColl with ⟨rmi, tmi⟩
    cases rmi with
    | error e => simp [extractPkg, hit, ht, hd, hkb, hcat, hmi] at h
    | ok mis =>
    rcases hsu : u.supportURLProp with e | su
    · simp [extractPkg, hit, ht, hd, hkb, hcat, hmi, hsu] at h
    rcases hlr : u.ldctRaw with e | lr
    · simp [extractPkg, hit, ht, hd, hkb, hcat, hmi, hsu, hlr] at h
    rcases hld : u.ldctDate with e | ld
    · simp [extractPkg, hit, ht, hd, hkb, hcat, hmi, hsu, hlr, hld] at h
    rcases hidr : identityRead u.identityObj with ⟨rid, tid⟩
    cases rid with
    | error e => simp [extractPkg, hit, ht, hd, hkb, hcat, hmi, hsu, hlr, hld, hidr] at h
    | ok rvuid =>
    simp [extractPkg, hit, ht, hd, hkb, hcat, hmi, hsu, hlr, hld, hidr] at h
    subst h
    simp

/-- Inversion of the extraction loop: a successful run over n indices
yields a list of length n whose entry at each index is the successful
extraction at that index. -/
theorem extractLoop_ok (c : UpdateColl) :
    ∀ (n : Nat) (ps : List WUAPackage), (extractLoop c n).1 = .ok ps →
    ps.length = n
    ∧ ∀ (j : Nat) (hj : j < ps.length), (extractPkg c j).1 = .ok ps[j] := by
  intro n
  induction n with
  | zero =>
    intro ps h
    simp only [extractLoop, Except.ok.injEq] at h
    subst h
    exact ⟨rfl, by intro j hj; simp at hj⟩
  | succ n ih =>
    intro ps h
    rcases hL : extractLoop c n with ⟨r, tr⟩
    simp only [extractLoop] at h
    rw [hL] at h
    cases r with
    | error e => simp at h
    | ok ps0 =>
      rcases hE : (extractPkg c n).1 with e | p
      · rw [hE] at h
        simp at h
      · rw [hE] at h
        simp only [Except.ok.injEq] at h
        subst h
        obtain ⟨hl, hitems⟩ := ih ps0 (by rw [hL])
        refine ⟨by simp [hl], ?_⟩
        intro j hj
        rcases Nat.lt_or_ge j n with hlt | hge
        · rw [List.getElem_append_left (by omega)]
          exact hitems j (by omega)
        · have hjeq : j = n := by
            simp only [List.length_append, List.length_singleton] at hj
            omega
          subst hjeq
          rw [List.getElem_append_right (by omega)]
          simp only [hl, Nat.sub_self, List.getElem_singleton]
          exact hE

/-- A prefix of successful extractions makes the loop succeed. -/
theorem extractLoop_all_ok (c : UpdateColl) :
    ∀ (n : Nat), (∀ j, j < n → ∃ p, (extractPkg c j).1 = .ok p) →
    ∃ ps, (extractLoop c n).1 = .ok ps := by
  intro n
  induction n with
  | zero => exact fun _ => ⟨[], rfl⟩
  | succ n ih =>
    intro hall
    obtain ⟨ps, hps⟩ := ih (fun j hj => hall j (by omega))
    obtain ⟨p, hp⟩ := hall n (by omega)
    refine ⟨ps ++ [p], ?_⟩
    rcases hL : extractLoop c n with ⟨r, tr⟩
    rw [hL] at hps
    simp at hps
    subst hps
    simp only [extractLoop, hL]
    simp [hp]

/-- A failing extraction at index K, after successful ones before it,
makes the whole loop fail with that same error for every bound above K. -/
theorem extractLoop_err (c : UpdateColl) (K : Nat) (e : GoErr)
    (hpre : ∀ j, j < K → ∃ p, (extractPkg c j).1 = .ok p)
    (hK : (extractPkg c K).1 = .error e) :
    ∀ m, K < m → (extractLoop c m).1 = .error e := by
  intro m
  induction m with
  | zero => omega
  | succ m ih =>
    intro hKm
    rcases Nat.lt_or_ge K m with hlt | hge
    · have herr := ih hlt
      rcases hL : extractLoop c m with ⟨r, tr⟩
      rw [hL] at herr
      simp at herr
      subst herr
      simp only [extractLoop, hL]
    · have hKeq : K = m := by omega
      subst hKeq
      obtain ⟨ps, hps⟩ := extractLoop_all_ok c K hpre
      rcases hL : extractLoop c K with ⟨r, tr⟩
      rw [hL] at hps
      simp at hps
      subst hps
      simp only [extractLoop, hL]
      simp [hK]


/-- Claim C1: when the search collection reports count N and the whole
extraction succeeds, the returned list has length N, and in every
returned package the Categories and CategoryIDs lists have equal length
with position i in both coming from the Name and CategoryID of the same
category item of the same update. -/
theorem wua_search_length_and_categories (w : WuaWorld) (coll : UpdateColl)
    (n : Nat) (pkgs : List WUAPackage)
    (hcoll : w.search.updatesProp = .ok coll)
    (hcnt : GetCount coll.countProp = .ok (n : Int))
    (hok : (WUAUpdates w).1 = .ok pkgs) :
    pkgs.length = n
    ∧ ∀ (j : Nat) (hj : j < pkgs.length),
        pkgs[j].Categories.length = pkgs[j].CategoryIDs.length
        ∧ ∃ u cc, coll.item j = .ok u ∧ u.catColl = .ok cc
          ∧ ∀ (i : Nat) (h1 : i < pkgs[j].Categories.length)
              (h2 : i < pkgs[j].CategoryIDs.length),
              ∃ ci, cc.item i = .ok ci
                ∧ ci.nameProp = .ok pkgs[j].Categories[i]
                ∧ ci.categoryIDProp = .ok pkgs[j].CategoryIDs[i] := by
  rcases hci : w.session.coInitRes with e | u0
  · simp [WUAUpdates, NewUpdateSession, hci] at hok
  rcases hcr : w.session.createObj with e | h1
  · simp [WUAUpdates, NewUpdateSession, hci, hcr] at hok
  rcases hqi : w.session.queryIface with e | h2
  · simp [WUAUpdates, NewUpdateSession, hci, hcr, hqi] at hok
  rcases hcs : w.search.createSearcher with e | a
  · simp [WUAUpdates, NewUpdateSession, GetWUAUpdateCollection, hci, hcr, hqi, hcs] at hok
  rcases hsc : w.search.searchCall with e | b
  · simp [WUAUpdates, NewUpdateSession, GetWUAUpdateCollection,
      hci, hcr, hqi, hcs, hsc] at hok
  simp only [WUAUpdates, NewUpdateSession, GetWUAUpdateCollection,
    hci, hcr, hqi, hcs, hsc, hcoll, hcnt] at hok
  by_cases hn : n = 0
  · subst hn
    simp at hok
    subst hok
    exact ⟨rfl, by intro j hj; simp at hj⟩
  · simp [hn] at hok
    obtain ⟨hlen, hitems⟩ := extractLoop_ok coll n pkgs hok
    refine ⟨hlen, ?_⟩
    intro j hj
    obtain ⟨u, hu, hcatok⟩ := extractPkg_ok_categories coll j (pkgs[j]) (hitems j hj)
    obtain ⟨cc, hcc, hleq, hcitems⟩ := categories_ok u.catColl _ _ hcatok
    exact ⟨hleq, u, cc, hu, hcc, hcitems⟩

/-- Witness for C1 at the fully successful two-update search world. -/
theorem wua_search_length_and_categories_witness :
    ∃ pkgs, (WUAUpdates exW).1 = .ok pkgs
      ∧ pkgs.length = 2
      ∧ ∀ (j : Nat) (hj : j < pkgs.length),
          pkgs[j].Categories.length = pkgs[j].CategoryIDs.length := by
  obtain ⟨pkgs, hok⟩ : ∃ pkgs, (WUAUpdates exW).1 = .ok pkgs := ⟨_, rfl⟩
  have h := wua_search_length_and_categories exW exColl 2 pkgs rfl rfl hok
  exact ⟨pkgs, hok, h.1, fun j hj => (h.2 j hj).1⟩

/-- Claim C2: a property-read failure at the K-th item of an N-item
search, with all earlier items extracting successfully, makes the whole
call return that error; the package list of the Go return value is nil
(the error constructor carries no list), never a partial list. -/
theorem wua_midloop_failure (w : WuaWorld) (coll : UpdateColl)
    (n K : Nat) (e : GoErr)
    (hs : sessionOk w.session) (hp : searchPathOk w.search)
    (hcoll : w.search.updatesProp = .ok coll)
    (hcnt : GetCount coll.countProp = .ok (n : Int))
    (hKn : K < n)
    (hpre : ∀ j, j < K → ∃ p, (extractPkg coll j).1 = .ok p)
    (hK : (extractPkg coll K).1 = .error e) :
    (WUAUpdates w).1 = .error e := by
  obtain ⟨hci, ⟨u0, hcr⟩, ⟨d0, hqi⟩⟩ := hs
  obtain ⟨⟨a, hcs⟩, ⟨b, hsc⟩⟩ := hp
  have hn : ¬ n = 0 := by omega
  have herr := extractLoop_err coll K e hpre hK n hKn
  simp [WUAUpdates, NewUpdateSession, GetWUAUpdateCollection,
    hci, hcr, hqi, hcs, hsc, hcoll, hcnt, hn, Int.toNat_ofNat, herr]

/-- Witness for C2 at the two-update world whose second item fails its
Description read. -/
theorem wua_midloop_failure_witness :
    (WUAUpdates exWBad).1 = .error "updt.GetProperty Description: E_FAIL" := by
  exact wua_midloop_failure exWBad exCollBad 2 1 "updt.GetProperty Description: E_FAIL"
    ⟨rfl, ⟨1, rfl⟩, ⟨2, rfl⟩⟩ ⟨⟨3, rfl⟩, ⟨4, rfl⟩⟩ rfl rfl (by omega)
    (by
      intro j hj
      have hj0 : j = 0 := by omega
      subst hj0
      exact ⟨_, rfl⟩)
    rfl


/-- The post-EULA chain (add, download, install) never invokes the
EULA-accept action. -/
theorem acceptEula_not_in_afterEula (w : InstallWorld) :
    Ev.acceptEula ∉ (installAfterEula w).2 := by
  rcases ha : w.addCall with e0 | u0 <;>
  rcases h1 : w.dl.createDownloader with e1 | dh <;>
  rcases h2 : w.dl.putUpdates with e2 | u2 <;>
  rcases h3 : w.dl.download with e3 | u3 <;>
  rcases h4 : w.inst.createInstaller with e4 | ih2 <;>
  rcases h5 : w.inst.putUpdates with e5 | u5 <;>
  rcases h6 : w.inst.install with e6 | u6 <;>
    simp [installAfterEula, DownloadWUAUpdateCollection, InstallWUAUpdateCollection,
      ha, h1, h2, h3, h4, h5, h6]

/-- In the post-EULA chain, an Install invocation implies the Download
call succeeded, and the download and install invocations appear exactly
once each, download first. -/
theorem afterEula_install_inv (w : InstallWorld)
    (hin : Ev.callInstall ∈ (installAfterEula w).2) :
    w.dl.download = .ok ()
    ∧ diFilter (installAfterEula w).2 = [.callDownload, .callInstall] := by
  rcases ha : w.addCall with e0 | u0 <;>
  rcases h1 : w.dl.createDownloader with e1 | dh <;>
  rcases h2 : w.dl.putUpdates with e2 | u2 <;>
  rcases h3 : w.dl.download with e3 | ⟨⟩ <;>
  rcases h4 : w.inst.createInstaller with e4 | ih2 <;>
  rcases h5 : w.inst.putUpdates with e5 | u5 <;>
  rcases h6 : w.inst.install with e6 | u6 <;>
    simp_all [installAfterEula, DownloadWUAUpdateCollection, InstallWUAUpdateCollection,
      diFilter]

/-- Claim C3: when the EulaAccepted flag reads 0, the install path invokes
AcceptEula exactly once and before any Download invocation; when the flag
reads non-zero, AcceptEula is never invoked. -/
theorem install_eula_exactly_once (w : InstallWorld) (t : String) (cHid : Nat) (v : Int)
    (ht : w.updt.titleProp = .ok t)
    (hnc : (NewUpdateCollection w.newColl).1 = .ok cHid)
    (he : w.updt.eulaVal = .ok v) :
    (v = 0 →
        evCount (InstallWUAUpdate w).2 .acceptEula = 1
        ∧ ∃ pre post, (InstallWUAUpdate w).2 = pre ++ Ev.acceptEula :: post
            ∧ Ev.callDownload ∉ pre ∧ Ev.acceptEula ∉ post)
    ∧ (v ≠ 0 → evCount (InstallWUAUpdate w).2 .acceptEula = 0) := by
  rcases hnco : w.newColl.createObj with e | uh
  · simp [NewUpdateCollection, hnco] at hnc
  rcases hncq : w.newColl.queryIface with e | dh
  · simp [NewUpdateCollection, hnco, hncq] at hnc
  have hdh : dh = cHid := by
    simp [NewUpdateCollection, hnco, hncq] at hnc
    exact hnc
  subst hdh
  have hni := acceptEula_not_in_afterEula w
  constructor
  · intro hv
    subst hv
    rcases hacc : w.acceptEulaCall with e | u
    · have htr : (InstallWUAUpdate w).2 =
          [.acquire uh, .acquire dh, .release uh] ++ Ev.acceptEula :: [.release dh] := by
        simp [InstallWUAUpdate, NewUpdateCollection, eulaStep, ht, he, hnco, hncq, hacc]
      rw [htr]
      exact ⟨by simp [evCount], [.acquire uh, .acquire dh, .release uh], [.release dh],
        rfl, by simp, by simp⟩
    · have htr : (InstallWUAUpdate w).2 =
          [.acquire uh, .acquire dh, .release uh]
            ++ Ev.acceptEula :: ((installAfterEula w).2 ++ [.release dh]) := by
        simp [InstallWUAUpdate, NewUpdateCollection, eulaStep, ht, he, hnco, hncq, hacc]
      rw [htr]
      refine ⟨?_, [.acquire uh, .acquire dh, .release uh],
        (installAfterEula w).2 ++ [.release dh], rfl, by simp, by simp [hni]⟩
      simp [evCount, List.count_append, List.count_cons, List.count_eq_zero.mpr hni]
  · intro hv
    have htr : (InstallWUAUpdate w).2 =
        [.acquire uh, .acquire dh, .release uh]
          ++ ((installAfterEula w).2 ++ [.release dh]) := by
      simp [InstallWUAUpdate, NewUpdateCollection, eulaStep, ht, he, hnco, hncq, hv]
    rw [htr]
    simp [evCount, List.count_append, List.count_eq_zero.mpr hni]

/-- Witness for C3 at the successful install worlds with flag 0 and
flag 1. -/
theorem install_eula_exactly_once_witness :
    evCount (InstallWUAUpdate exInstall).2 .acceptEula = 1
    ∧ evCount (InstallWUAUpdate exInstallAcc).2 .acceptEula = 0 :=
  ⟨((install_eula_exactly_once exInstall "Title0" 71 0 rfl rfl rfl).1 rfl).1,
   (install_eula_exactly_once exInstallAcc "Title1" 71 1 rfl rfl rfl).2 (by decide)⟩

/-- Claim C4: if the Install action is invoked during an install, the
Download call completed successfully, and the trace restricted to
download and install invocations is exactly one Download followed by one
Install — install never runs after a failed or missing download. -/
theorem install_download_precedes_install (w : InstallWorld)
    (hin : Ev.callInstall ∈ (InstallWUAUpdate w).2) :
    w.dl.download = .ok ()
    ∧ diFilter (InstallWUAUpdate w).2 = [.callDownload, .callInstall] := by
  rcases ht : w.updt.titleProp with e | t
  · simp [InstallWUAUpdate, ht] at hin
  rcases hnco : w.newColl.createObj with e | uh
  · simp [InstallWUAUpdate, NewUpdateCollection, ht, hnco] at hin
  rcases hncq : w.newColl.queryIface with e | dh
  · simp [InstallWUAUpdate, NewUpdateCollection, ht, hnco, hncq] at hin
  rcases he : w.updt.eulaVal with e | v
  · simp [InstallWUAUpdate, NewUpdateCollection, ht, hnco, hncq, he] at hin
  by_cases hv : v = 0
  · subst hv
    rcases hacc : w.acceptEulaCall with e | u
    · simp [InstallWUAUpdate, NewUpdateCollection, eulaStep, ht, hnco, hncq, he, hacc] at hin
    · have htr : (InstallWUAUpdate w).2 =
          [.acquire uh, .acquire dh, .release uh]
            ++ Ev.acceptEula :: ((installAfterEula w).2 ++ [.release dh]) := by
        simp [InstallWUAUpdate, NewUpdateCollection, eulaStep, ht, he, hnco, hncq, hacc]
      rw [htr] at hin ⊢
      have hin2 : Ev.callInstall ∈ (installAfterEula w).2 := by
        simpa using hin
      obtain ⟨hdl, hdi⟩ := afterEula_install_inv w hin2
      refine ⟨hdl, ?_⟩
      simp only [diFilter] at hdi ⊢
      simp [List.filter_append, hdi]
  · have htr : (InstallWUAUpdate w).2 =
        [.acquire uh, .acquire dh, .release uh]
          ++ ((installAfterEula w).2 ++ [.release dh]) := by
      simp [InstallWUAUpdate, NewUpdateCollection, eulaStep, ht, he, hnco, hncq, hv]
    rw [htr] at hin ⊢
    have hin2 : Ev.callInstall ∈ (installAfterEula w).2 := by
      simpa using hin
    obtain ⟨hdl, hdi⟩ := afterEula_install_inv w hin2
    refine ⟨hdl, ?_⟩
    simp only [diFilter] at hdi ⊢
    simp [List.filter_append, hdi]

/-- Witness for C4 at the fully successful install world. -/
theorem install_download_precedes_install_witness :
    Ev.callInstall ∈ (InstallWUAUpdate exInstall).2
    ∧ exInstall.dl.download = .ok ()
    ∧ diFilter (InstallWUAUpdate exInstall).2 = [.callDownload, .callInstall] := by
  have hin : Ev.callInstall ∈ (InstallWUAUpdate exInstall).2 := by decide
  have h := install_download_precedes_install exInstall hin
  exact ⟨hin, h.1, h.2⟩

/-- Claim C9 evidence: on a fully successful search call (zero updates,
every automation call succeeding), the IUnknown obtained from CreateObject
while building the session (handle 1) is acquired once and never
released, while every other handle (session dispatch 2, searcher 3,
search result 4, update collection 7) is acquired and released exactly
once and the lock is released exactly once.  The source releases that
IUnknown only on the interface-query failure path. -/
theorem wua_session_unknown_leak :
    (WUAUpdates exWZero).1 = .ok []
    ∧ evCount (WUAUpdates exWZero).2 (.acquire 1) = 1
    ∧ evCount (WUAUpdates exWZero).2 (.release 1) = 0
    ∧ evCount (WUAUpdates exWZero).2 (.acquire 2) = 1
    ∧ evCount (WUAUpdates exWZero).2 (.release 2) = 1
    ∧ evCount (WUAUpdates exWZero).2 (.acquire 3) = 1
    ∧ evCount (WUAUpdates exWZero).2 (.release 3) = 1
    ∧ evCount (WUAUpdates exWZero).2 (.acquire 4) = 1
    ∧ evCount (WUAUpdates exWZero).2 (.release 4) = 1
    ∧ evCount (WUAUpdates exWZero).2 (.acquire 7) = 1
    ∧ evCount (WUAUpdates exWZero).2 (.release 7) = 1
    ∧ evCount (WUAUpdates exWZero).2 .lock = 1
    ∧ evCount (WUAUpdates exWZero).2 .unlock = 1 := by
  refine ⟨rfl, ?_⟩
  decide

end Wua
